import Mathlib

/-!
Shallow embedding of the freehand draw-shape utility
(`src/packages/dev/src/state/shapes/draw.tsx`) of the perfect-freehand
repository, together with the geometry helpers it consumes.

Machine numbers are modelled as exact rationals.  The geometry helpers
(`Utils`, `Vec`, `Intersect` of the tldraw core library) and the stroke
generator (`getStroke` / `getStrokePoints` of the perfect-freehand package)
are not part of the provided sources; where a claim depends on them they are
modelled from the specification (see the doc comments marked
"Modelled from the spec").  The identity-keyed caches of the source are
pure memoization (same key, same value); they are modelled as transparent
calls to the underlying computation.
-/

/-- An input point of a stroke: x, y and a pressure component (the source
stores these as 3-element arrays `[x, y, pressure]`). -/
structure Point3 where
  x : ℚ
  y : ℚ
  p : ℚ
deriving DecidableEq, Repr

/-- A plain 2D point (the source stores these as 2-element arrays). -/
abbrev Point2 : Type := ℚ × ℚ

namespace Vec

/-- Vector addition, `Vec.add` of the tldraw core. Modelled from the spec:
componentwise addition of 2D vectors. -/
def add (a b : Point2) : Point2 := (a.1 + b.1, a.2 + b.2)

/-- Vector subtraction, `Vec.sub` of the tldraw core. Modelled from the spec:
componentwise subtraction of 2D vectors. -/
def sub (a b : Point2) : Point2 := (a.1 - b.1, a.2 - b.2)

/-- Vector negation, `Vec.neg` of the tldraw core. Modelled from the spec:
componentwise negation of a 2D vector. -/
def neg (a : Point2) : Point2 := (-a.1, -a.2)

end Vec

/-- Axis-aligned bounds record (`TLBounds`).  The spec keeps `width` and
`height` normalized to `maxX - minX` / `maxY - minY`, so they are derived
functions here rather than free fields. -/
structure TLBounds where
  minX : ℚ
  minY : ℚ
  maxX : ℚ
  maxY : ℚ
deriving DecidableEq, Repr

/-- Normalized width of a bounds record (`width = maxX - minX`). -/
def TLBounds.width (b : TLBounds) : ℚ := b.maxX - b.minX

/-- Normalized height of a bounds record (`height = maxY - minY`). -/
def TLBounds.height (b : TLBounds) : ℚ := b.maxY - b.minY

/-- The style record of a draw shape (the `style` field of `DrawShape`). -/
structure DrawStyle where
  size : ℚ
  strokeWidth : ℚ
  thinning : ℚ
  streamline : ℚ
  smoothing : ℚ
  taperStart : ℚ
  taperEnd : ℚ
  capStart : Bool
  capEnd : Bool
  isFilled : Bool
  color : String
deriving DecidableEq, Repr

/-- The draw shape: identity, placement (`point`, `rotation`), geometry
(`points`, in shape-local space), completion flag and style. -/
structure DrawShape where
  id : String
  name : String
  parentId : String
  childIndex : ℚ
  point : Point2
  points : List Point3
  rotation : ℚ
  isDone : Bool
  style : DrawStyle
deriving DecidableEq, Repr

namespace Utils

/-- Model of `Utils.getBoundsFromPoints` (tldraw core, no rotation argument).
Modelled from the spec: the axis-aligned envelope (min/max of x and of y)
of a point set; the empty point set is an error condition ("fails with an
empty input error"), modelled as `none`. -/
def getBoundsFromPoints (pts : List Point3) : Option TLBounds :=
  match pts with
  | [] => none
  | q :: rest =>
    some { minX := ((rest.map Point3.x).foldr min q.x)
         , minY := ((rest.map Point3.y).foldr min q.y)
         , maxX := ((rest.map Point3.x).foldr max q.x)
         , maxY := ((rest.map Point3.y).foldr max q.y) }

/-- Model of `Utils.translateBounds` (tldraw core). Modelled from the spec:
translate a bounds record by an offset. -/
def translateBounds (b : TLBounds) (delta : Point2) : TLBounds :=
  { minX := b.minX + delta.1
  , minY := b.minY + delta.2
  , maxX := b.maxX + delta.1
  , maxY := b.maxY + delta.2 }

/-- Model of `Utils.boundsContain a b` (tldraw core): whether bounds `a` fully
contain bounds `b`.  Modelled from the spec; boundary contact is included
("touching counts", keeping selection forgiving). -/
def boundsContain (a b : TLBounds) : Bool :=
  decide (a.minX ≤ b.minX) && decide (a.minY ≤ b.minY) &&
  decide (b.maxX ≤ a.maxX) && decide (b.maxY ≤ a.maxY)

/-- Model of `Utils.getBoundsCenter` (tldraw core). Modelled from the spec: the
center point of a bounds record. -/
def getBoundsCenter (b : TLBounds) : Point2 :=
  ((b.minX + b.maxX) / 2, (b.minY + b.maxY) / 2)

/-- Model of `Utils.getBoundsFromPoints` with a rotation argument. Modelled from the
spec: optionally pre-rotating each point by the given angle about the set's
own center before taking the envelope.  Exact trigonometry is not
representable over the rationals, so the point-rotation operation
(`Vec.rotWith`, angle / pivot / point) is passed in as a parameter `rot`;
the spec's counter-clockwise convention forces `rot 0 c` to be the
identity, which theorems assume explicitly where needed. -/
def getBoundsFromPointsRot (rot : ℚ → Point2 → Point2 → Point2)
    (pts : List Point3) (angle : ℚ) : Option TLBounds :=
  match getBoundsFromPoints pts with
  | none => none
  | some b =>
    getBoundsFromPoints (pts.map fun q =>
      let r := rot angle (getBoundsCenter b) (q.x, q.y)
      ⟨r.1, r.2, q.p⟩)

end Utils

namespace Intersect

/-- Signed orientation area of the triangle `a b c` (used by the
segment-segment test). -/
def orient (a b c : Point2) : ℚ :=
  (b.1 - a.1) * (c.2 - a.2) - (b.2 - a.2) * (c.1 - a.1)

/-- Whether point `c`, known collinear with segment `a b`, lies on it. -/
def onSeg (a b c : Point2) : Bool :=
  decide (orient a b c = 0) &&
  decide (min a.1 b.1 ≤ c.1) && decide (c.1 ≤ max a.1 b.1) &&
  decide (min a.2 b.2 ≤ c.2) && decide (c.2 ≤ max a.2 b.2)

/-- Whether segments `a b` and `c d` intersect; touching counts.  Modelled
from the spec: zero-area overlap counts as an intersection. -/
def segsIntersect (a b c d : Point2) : Bool :=
  (decide (orient a b c * orient a b d < 0) &&
   decide (orient c d a * orient c d b < 0)) ||
  onSeg a b c || onSeg a b d || onSeg c d a || onSeg c d b

/-- The four corner-to-corner edge segments of a bounds record. -/
def boundsEdges (b : TLBounds) : List (Point2 × Point2) :=
  [ ((b.minX, b.minY), (b.maxX, b.minY))
  , ((b.maxX, b.minY), (b.maxX, b.maxY))
  , ((b.maxX, b.maxY), (b.minX, b.maxY))
  , ((b.minX, b.maxY), (b.minX, b.minY)) ]

/-- Whether any segment of a polyline (adjacent point pairs) crosses any of
the four edge segments of the bounds. -/
def polylineCrossesBounds (pts : List Point2) (b : TLBounds) : Bool :=
  (pts.zip pts.tail).any fun s =>
    (boundsEdges b).any fun e => segsIntersect s.1 s.2 e.1 e.2

/-- Model of `Intersect.bounds.bounds` (tldraw core), reduced to the emptiness test
its caller performs.  Modelled from the spec: standard interval-overlap
test on both axes, touching counts; `true` exactly when the returned
intersection list would be non-empty. -/
def boundsBounds (a b : TLBounds) : Bool :=
  decide (a.minX ≤ b.maxX) && decide (b.minX ≤ a.maxX) &&
  decide (a.minY ≤ b.maxY) && decide (b.minY ≤ a.maxY)

/-- Model of `Intersect.polyline.bounds` (tldraw core), reduced to the emptiness
test its caller performs.  Modelled from the spec: each polyline segment is
tested against the box's four edges; `true` exactly when some segment
crosses an edge. -/
def polylineBounds (pts : List Point3) (b : TLBounds) : Bool :=
  polylineCrossesBounds (pts.map fun q => (q.x, q.y)) b

/-- Model of `Intersect.bounds.polyline` (tldraw core), the symmetric form used when
the box has been translated into the polyline's frame.  Modelled from the
spec. -/
def boundsPolyline (b : TLBounds) (pts : List Point2) : Bool :=
  polylineCrossesBounds pts b

end Intersect

namespace Draw

/-- Method `Draw.getBounds`: local bounds of `points`, translated by `point`
(`translateBounds(getBoundsFromPoints(shape.points), shape.point)`; the
identity-keyed cache is transparent). -/
def getBounds (s : DrawShape) : Option TLBounds :=
  (Utils.getBoundsFromPoints s.points).map fun b =>
    Utils.translateBounds b s.point

/-- Method `Draw.getRotatedBounds`: bounds of `points` pre-rotated by
`shape.rotation`, translated by `point`. The point-rotation operation `rot`
is a parameter (see `Utils.getBoundsFromPointsRot`). -/
def getRotatedBounds (rot : ℚ → Point2 → Point2 → Point2)
    (s : DrawShape) : Option TLBounds :=
  (Utils.getBoundsFromPointsRot rot s.points s.rotation).map fun b =>
    Utils.translateBounds b s.point

/-- Method `Draw.getCenter`: center of the shape's bounds. -/
def getCenter (s : DrawShape) : Option Point2 :=
  (getBounds s).map Utils.getBoundsCenter

/-- Method `Draw.hitTest`: the source body is literally `return true`. -/
def hitTest (_s : DrawShape) (_pt : Point2) : Bool :=
  true

/-- Method `Draw.hitTestBounds`.  Axis-aligned branch when `rotation` is zero
(falsy); otherwise the rotated branch, using the parameterized point
rotation `rot` (the rotated-points cache is transparent). -/
def hitTestBounds (rot : ℚ → Point2 → Point2 → Point2)
    (s : DrawShape) (brushBounds : TLBounds) : Option Bool :=
  if s.rotation = 0 then
    (getBounds s).map fun bounds =>
      Utils.boundsContain brushBounds bounds ||
      ((Utils.boundsContain bounds brushBounds ||
        Intersect.boundsBounds bounds brushBounds) &&
       Intersect.polylineBounds s.points
         (Utils.translateBounds brushBounds (Vec.neg s.point)))
  else
    (getRotatedBounds rot s).bind fun rBounds =>
      (Utils.getBoundsFromPoints s.points).map fun b =>
        let c := Utils.getBoundsCenter b
        let rotatedPoints := s.points.map fun q => rot s.rotation c (q.x, q.y)
        Utils.boundsContain brushBounds rBounds ||
        Intersect.boundsPolyline
          (Utils.translateBounds brushBounds (Vec.neg s.point))
          rotatedPoints

/-- The transform-info record handed to `transform` (`TLTransformInfo`):
the originating shape snapshot and the two scale factors. -/
structure TransformInfo where
  initialShape : DrawShape
  scaleX : ℚ
  scaleY : ℚ

/-- Method `Draw.transform`: maps every initial point proportionally from the
initial shape's local bounds into the target bounds (mirroring a
coordinate when the corresponding scale factor is negative), and sets
`point` so the bounds of the current `shape.points` land at the target's
min corner.  Bounds of an empty point list are an error (`none`). -/
def transform (s : DrawShape) (bounds : TLBounds) (info : TransformInfo) :
    Option DrawShape :=
  match Utils.getBoundsFromPoints info.initialShape.points,
        Utils.getBoundsFromPoints s.points with
  | some initialShapeBounds, some newBounds =>
    let pts := info.initialShape.points.map fun q =>
      Point3.mk
        (bounds.width *
          (if info.scaleX < 0 then 1 - q.x / initialShapeBounds.width
           else q.x / initialShapeBounds.width))
        (bounds.height *
          (if info.scaleY < 0 then 1 - q.y / initialShapeBounds.height
           else q.y / initialShapeBounds.height))
        q.p
    some { s with
           points := pts
         , point := Vec.sub (bounds.minX, bounds.minY)
                            (newBounds.minX, newBounds.minY) }
  | _, _ => none

/-- Method `Draw.transformSingle` delegates to `transform`. -/
def transformSingle (s : DrawShape) (bounds : TLBounds)
    (info : TransformInfo) : Option DrawShape :=
  transform s bounds info

/-- Method `Draw.onSessionComplete`: re-origin `points` by the offset of the
shape's bounds min corner from `point`, compensating `point` by the same
offset. -/
def onSessionComplete (s : DrawShape) : Option DrawShape :=
  (getBounds s).map fun bounds =>
    let x1 := bounds.minX - s.point.1
    let y1 := bounds.minY - s.point.2
    { s with
      points := s.points.map fun q => Point3.mk (q.x - x1) (q.y - y1) q.p
    , point := Vec.add s.point (x1, y1) }

end Draw

/-- The options record handed to `getStroke` by `render` (field per field
as the call site spells them). -/
structure StrokeOptions where
  size : ℚ
  thinning : ℚ
  streamline : ℚ
  smoothing : ℚ
  taperEnd : ℚ
  capEnd : Bool
  taperStart : ℚ
  capStart : Bool
  simulatePressure : Bool
  last : Bool
deriving DecidableEq, Repr

/-- The drawable `render` returns: either a circle primitive (the dot
fallback) or a path primitive, each carrying the paint attributes the
source sets on the corresponding SVG element. -/
inductive RenderOut where
  | circle (r : ℚ) (fill : String) (stroke : String) (strokeWidth : ℚ)
  | path (d : String) (fill : String) (stroke : String) (strokeWidth : ℚ)
deriving DecidableEq, Repr

/-- Whether a render output is the path primitive. -/
def RenderOut.isPath : RenderOut → Bool
  | .circle _ _ _ _ => false
  | .path _ _ _ _ => true

namespace Draw

/-- The stroke options `render` builds for `getStroke`: style fields,
`simulatePressure` exactly when the second input point's pressure is 0.5
(`shape.points[1][2] === 0.5`), `last` from `isDone`. -/
def renderStrokeOptions (s : DrawShape) : StrokeOptions :=
  { size := s.style.size
  , thinning := s.style.thinning
  , streamline := s.style.streamline
  , smoothing := s.style.smoothing
  , taperEnd := s.style.taperEnd
  , capEnd := s.style.capEnd
  , taperStart := s.style.taperStart
  , capStart := s.style.capStart
  , simulatePressure := decide ((s.points.getD 1 (Point3.mk 0 0 0)).p = 1/2)
  , last := s.isDone }

/-- The `fill` attribute `render` computes: the color when filled, the
string "none" otherwise. -/
def renderFill (st : DrawStyle) : String :=
  if st.isFilled then st.color else "none"

/-- The stroke-width attribute `render` computes
(`fill ? strokeWidth || 1 : strokeWidth`, with JavaScript truthiness: an
empty string is falsy, a zero width is falsy). -/
def renderWidthAttr (st : DrawStyle) : ℚ :=
  if renderFill st = "" then st.strokeWidth
  else if st.strokeWidth = 0 then 1 else st.strokeWidth

/-- Method `Draw.render`.  Computes the shape's bounds (an error on an empty point
list), then returns the dot fallback — a circle of radius `size * 0.32` —
when the stroke has at most 2 points or its bounds are smaller than
`size / 2` on both axes, and `isDone` holds; otherwise a path whose data
comes from `getStroke(shape.points.slice(2), …)` when there are more than
2 points and is empty otherwise.  The stroke generator `gs` (perfect
freehand's `getStroke`) and the path serializer `svg`
(`Utils.getSvgPathFromStroke`) are not in the provided sources and are
passed as parameters. -/
def render (gs : List Point3 → StrokeOptions → List Point2)
    (svg : List Point2 → String) (s : DrawShape) : Option RenderOut :=
  (getBounds s).map fun bounds =>
    let st := s.style
    let fill := renderFill st
    let sw := renderWidthAttr st
    if (decide (s.points.length ≤ 2) ||
        (decide (bounds.width < st.size / 2) &&
         decide (bounds.height < st.size / 2))) && s.isDone then
      RenderOut.circle (st.size * (8 / 25)) fill st.color sw
    else
      let drawPathData :=
        if 2 < s.points.length then
          svg (gs (s.points.drop 2) (renderStrokeOptions s))
        else ""
      RenderOut.path drawPathData fill st.color sw

end Draw

/-- Decimal rendering of a machine number, as interpolated into the path
strings.  Modelled from the spec's drawing-command output: integers print
without a fractional part; a non-integral rational prints as
numerator/denominator (the claims only interpolate integral inputs). -/
def qToString (q : ℚ) : String :=
  if q.den = 1 then toString q.num
  else toString q.num ++ "/" ++ toString q.den

/-- Function `getSolidStrokePath` (module level in the source): the degenerate path
for zero points, a bare move-to for fewer than 3 points, and otherwise the
quadratic-through-midpoints path over the resampled stroke points.  The
long branch (perfect freehand's `getStrokePoints` followed by the
two-decimal string build) is not in the provided sources and is passed as
the parameter `longPath`. -/
def getSolidStrokePath (longPath : List Point3 → String)
    (s : DrawShape) : String :=
  let points := s.points
  let len := points.length
  if len = 0 then "M 0 0 L 0 0"
  else if len < 3 then
    "M " ++ qToString (points.getD 0 (Point3.mk 0 0 0)).x ++ " " ++
      qToString (points.getD 0 (Point3.mk 0 0 0)).y
  else longPath points

namespace Draw

/-- Method `Draw.renderIndicator` returns a path element whose data is
`getSolidStrokePath` of the shape (the identity-keyed cache is
transparent); modelled as that path data. -/
def renderIndicator (longPath : List Point3 → String)
    (s : DrawShape) : String :=
  getSolidStrokePath longPath s

end Draw

/-- The hit-test-bounds predicate in the wording of the specification's
testable property (a refinement-comparison definition following the spec's
words, not the source): the query box intersects, contains, or is
contained by the shape's bounds, and, when the boxes merely overlap
without either containing the other, at least one stroke segment crosses
the query box. -/
def hitTestBoundsSpecC2 (s : DrawShape) (brushBounds : TLBounds) :
    Option Bool :=
  (Draw.getBounds s).map fun bounds =>
    let crosses := Intersect.polylineBounds s.points
      (Utils.translateBounds brushBounds (Vec.neg s.point))
    let overlapAny := Intersect.boundsBounds bounds brushBounds ||
      Utils.boundsContain brushBounds bounds ||
      Utils.boundsContain bounds brushBounds
    let mereOverlap := Intersect.boundsBounds bounds brushBounds &&
      !Utils.boundsContain brushBounds bounds &&
      !Utils.boundsContain bounds brushBounds
    overlapAny && (!mereOverlap || crosses)

/-- Predicate: `b` is the axis-aligned bounding box of `pts`: it bounds every point,
and each of its four sides is attained. -/
def IsAABBOf (pts : List Point3) (b : TLBounds) : Prop :=
  (∀ q ∈ pts, b.minX ≤ q.x ∧ q.x ≤ b.maxX ∧ b.minY ≤ q.y ∧ q.y ≤ b.maxY) ∧
  (∃ q ∈ pts, q.x = b.minX) ∧ (∃ q ∈ pts, q.x = b.maxX) ∧
  (∃ q ∈ pts, q.y = b.minY) ∧ (∃ q ∈ pts, q.y = b.maxY)

/-! Concrete fixtures, mirroring the source's `defaultProps`. -/

/-- The default style of `defaultProps` in the source. -/
def defaultStyle : DrawStyle :=
  { size := 8, strokeWidth := 0, thinning := 3 / 4, streamline := 1 / 2
  , smoothing := 1 / 2, taperStart := 0, taperEnd := 0, capStart := true
  , capEnd := true, isFilled := true, color := "#000" }

/-- The source's `defaultProps` shape. -/
def defaultDraw : DrawShape :=
  { id := "id", name := "Draw", parentId := "page", childIndex := 1
  , point := (0, 0), points := [Point3.mk 0 0 (1/2)], rotation := 0
  , isDone := false, style := defaultStyle }

/-- Demo shape of the spec's end-to-end property: points
`[[0,0,0.5],[10,0,0.5],[10,10,0.5]]`, default style. -/
def shapeDemo : DrawShape :=
  { defaultDraw with
    points := [Point3.mk 0 0 (1/2), Point3.mk 10 0 (1/2),
               Point3.mk 10 10 (1/2)] }

/-- A shape whose local bounds min corner is not at the origin. -/
def shapeOffOrigin : DrawShape :=
  { defaultDraw with
    points := [Point3.mk 1 1 (1/2), Point3.mk 2 2 (1/2)] }

/-- A finished two-point shape. -/
def shapeTwoDone : DrawShape :=
  { defaultDraw with
    point := (3, 4),
    points := [Point3.mk 1 2 (1/2), Point3.mk 5 7 (1/2)],
    isDone := true }

/-- A finished tap: three identical points (degenerate bounds). -/
def shapeDotDone : DrawShape :=
  { defaultDraw with
    points := [Point3.mk 0 0 (1/2), Point3.mk 0 0 (1/2),
               Point3.mk 0 0 (1/2)],
    isDone := true }

/-- A finished four-point stroke with non-degenerate bounds. -/
def shapeFourDone : DrawShape :=
  { defaultDraw with
    points := [Point3.mk 0 0 (1/2), Point3.mk 10 0 (1/2),
               Point3.mk 10 10 (1/2), Point3.mk 0 10 (1/2)],
    isDone := true }

/-- A finished shape with an empty point list (mid-draw degenerate state). -/
def shapeEmptyDone : DrawShape :=
  { defaultDraw with points := [], isDone := true }

/-- A query box strictly inside `shapeDemo`'s bounds that no stroke
segment touches. -/
def brushInside : TLBounds := ⟨2, 4, 4, 6⟩

/-- A query box that fully contains `shapeDemo`'s bounds. -/
def brushAround : TLBounds := ⟨-5, -5, 15, 15⟩

/-- Point-rotation instance: the identity at every angle (a legitimate
instance of the abstract rotation at angle zero). -/
def rotIdent : ℚ → Point2 → Point2 → Point2 := fun _ _ q => q

/-- Stroke-generator instance dropping options and pressure. -/
def gsProj : List Point3 → StrokeOptions → List Point2 :=
  fun pts _ => pts.map fun q => (q.x, q.y)

/-- Path-serializer instance with a constant marker output. -/
def svgMark : List Point2 → String := fun _ => "P"

/-- Long-path instance with a constant marker output. -/
def longMark : List Point3 → String := fun _ => "LONG"

/- Rational arithmetic is irreducible by default; concrete evaluations in
the theorems below go through `decide`, which needs it to reduce. -/
attribute [local semireducible] Rat.add Rat.mul Rat.inv Rat.sub

/-! Auxiliary lemmas about `foldr min` / `foldr max` envelopes. -/

theorem foldr_min_map_comm (f : ℚ → ℚ)
    (hf : ∀ u v : ℚ, f (min u v) = min (f u) (f v)) :
    ∀ (l : List ℚ) (a : ℚ), (l.map f).foldr min (f a) = f (l.foldr min a) := by
  intro l
  induction l with
  | nil => intro a; rfl
  | cons x l ih => intro a; simp only [List.map_cons, List.foldr_cons, ih, hf]

theorem foldr_max_map_comm (f : ℚ → ℚ)
    (hf : ∀ u v : ℚ, f (max u v) = max (f u) (f v)) :
    ∀ (l : List ℚ) (a : ℚ), (l.map f).foldr max (f a) = f (l.foldr max a) := by
  intro l
  induction l with
  | nil => intro a; rfl
  | cons x l ih => intro a; simp only [List.map_cons, List.foldr_cons, ih, hf]

theorem foldr_min_map_anti (f : ℚ → ℚ)
    (hf : ∀ u v : ℚ, f (max u v) = min (f u) (f v)) :
    ∀ (l : List ℚ) (a : ℚ), (l.map f).foldr min (f a) = f (l.foldr max a) := by
  intro l
  induction l with
  | nil => intro a; rfl
  | cons x l ih => intro a; simp only [List.map_cons, List.foldr_cons, ih, hf]

theorem foldr_max_map_anti (f : ℚ → ℚ)
    (hf : ∀ u v : ℚ, f (min u v) = max (f u) (f v)) :
    ∀ (l : List ℚ) (a : ℚ), (l.map f).foldr max (f a) = f (l.foldr min a) := by
  intro l
  induction l with
  | nil => intro a; rfl
  | cons x l ih => intro a; simp only [List.map_cons, List.foldr_cons, ih, hf]

theorem foldr_min_le_init : ∀ (l : List ℚ) (a : ℚ), l.foldr min a ≤ a := by
  intro l
  induction l with
  | nil => intro a; exact le_rfl
  | cons x l ih => intro a; exact (min_le_right _ _).trans (ih a)

theorem init_le_foldr_max : ∀ (l : List ℚ) (a : ℚ), a ≤ l.foldr max a := by
  intro l
  induction l with
  | nil => intro a; exact le_rfl
  | cons x l ih => intro a; exact (ih a).trans (le_max_right _ _)

theorem foldr_min_le_mem :
    ∀ (l : List ℚ) (a x : ℚ), x ∈ l → l.foldr min a ≤ x := by
  intro l
  induction l with
  | nil => intro a x hx; cases hx
  | cons y l ih =>
    intro a x hx
    rcases List.mem_cons.mp hx with h | h
    · exact h ▸ min_le_left _ _
    · exact (min_le_right _ _).trans (ih a x h)

theorem mem_le_foldr_max :
    ∀ (l : List ℚ) (a x : ℚ), x ∈ l → x ≤ l.foldr max a := by
  intro l
  induction l with
  | nil => intro a x hx; cases hx
  | cons y l ih =>
    intro a x hx
    rcases List.mem_cons.mp hx with h | h
    · exact h ▸ le_max_left _ _
    · exact (ih a x h).trans (le_max_right _ _)

theorem foldr_min_eq_init_or_mem :
    ∀ (l : List ℚ) (a : ℚ), l.foldr min a = a ∨ l.foldr min a ∈ l := by
  intro l
  induction l with
  | nil => intro a; exact Or.inl rfl
  | cons x l ih =>
    intro a
    rcases min_choice x (l.foldr min a) with h | h
    · exact Or.inr (by simp [List.foldr_cons, h])
    · rcases ih a with h2 | h2
      · exact Or.inl (by rw [List.foldr_cons, h, h2])
      · exact Or.inr (by simp only [List.foldr_cons, h]; exact List.mem_cons_of_mem _ h2)

theorem foldr_max_eq_init_or_mem :
    ∀ (l : List ℚ) (a : ℚ), l.foldr max a = a ∨ l.foldr max a ∈ l := by
  intro l
  induction l with
  | nil => intro a; exact Or.inl rfl
  | cons x l ih =>
    intro a
    rcases max_choice x (l.foldr max a) with h | h
    · exact Or.inr (by simp [List.foldr_cons, h])
    · rcases ih a with h2 | h2
      · exact Or.inl (by rw [List.foldr_cons, h, h2])
      · exact Or.inr (by simp only [List.foldr_cons, h]; exact List.mem_cons_of_mem _ h2)

/-! Bounds of componentwise-mapped point lists. -/

theorem getBoundsFromPoints_map_comp (fx fy : ℚ → ℚ) (q : Point3)
    (rest : List Point3) :
    Utils.getBoundsFromPoints
      ((q :: rest).map fun r => Point3.mk (fx r.x) (fy r.y) r.p) =
      some (TLBounds.mk
        (((rest.map Point3.x).map fx).foldr min (fx q.x))
        (((rest.map Point3.y).map fy).foldr min (fy q.y))
        (((rest.map Point3.x).map fx).foldr max (fx q.x))
        (((rest.map Point3.y).map fy).foldr max (fy q.y))) := by
  simp only [List.map_cons, Utils.getBoundsFromPoints, List.map_map]
  rfl

theorem getBoundsFromPoints_map_mm (fx fy : ℚ → ℚ)
    (hfx1 : ∀ u v : ℚ, fx (min u v) = min (fx u) (fx v))
    (hfx2 : ∀ u v : ℚ, fx (max u v) = max (fx u) (fx v))
    (hfy1 : ∀ u v : ℚ, fy (min u v) = min (fy u) (fy v))
    (hfy2 : ∀ u v : ℚ, fy (max u v) = max (fy u) (fy v))
    (pts : List Point3) (b : TLBounds)
    (h : Utils.getBoundsFromPoints pts = some b) :
    Utils.getBoundsFromPoints
      (pts.map fun r => Point3.mk (fx r.x) (fy r.y) r.p) =
      some ⟨fx b.minX, fy b.minY, fx b.maxX, fy b.maxY⟩ := by
  cases pts with
  | nil => simp [Utils.getBoundsFromPoints] at h
  | cons q rest =>
    simp only [Utils.getBoundsFromPoints] at h
    injection h with h
    subst h
    rw [getBoundsFromPoints_map_comp]
    rw [foldr_min_map_comm fx hfx1, foldr_min_map_comm fy hfy1,
        foldr_max_map_comm fx hfx2, foldr_max_map_comm fy hfy2]

theorem getBoundsFromPoints_map_am (fx fy : ℚ → ℚ)
    (hfx1 : ∀ u v : ℚ, fx (max u v) = min (fx u) (fx v))
    (hfx2 : ∀ u v : ℚ, fx (min u v) = max (fx u) (fx v))
    (hfy1 : ∀ u v : ℚ, fy (min u v) = min (fy u) (fy v))
    (hfy2 : ∀ u v : ℚ, fy (max u v) = max (fy u) (fy v))
    (pts : List Point3) (b : TLBounds)
    (h : Utils.getBoundsFromPoints pts = some b) :
    Utils.getBoundsFromPoints
      (pts.map fun r => Point3.mk (fx r.x) (fy r.y) r.p) =
      some ⟨fx b.maxX, fy b.minY, fx b.minX, fy b.maxY⟩ := by
  cases pts with
  | nil => simp [Utils.getBoundsFromPoints] at h
  | cons q rest =>
    simp only [Utils.getBoundsFromPoints] at h
    injection h with h
    subst h
    rw [getBoundsFromPoints_map_comp]
    rw [foldr_min_map_anti fx hfx1, foldr_min_map_comm fy hfy1,
        foldr_max_map_anti fx hfx2, foldr_max_map_comm fy hfy2]

theorem getBoundsFromPoints_map_ma (fx fy : ℚ → ℚ)
    (hfx1 : ∀ u v : ℚ, fx (min u v) = min (fx u) (fx v))
    (hfx2 : ∀ u v : ℚ, fx (max u v) = max (fx u) (fx v))
    (hfy1 : ∀ u v : ℚ, fy (max u v) = min (fy u) (fy v))
    (hfy2 : ∀ u v : ℚ, fy (min u v) = max (fy u) (fy v))
    (pts : List Point3) (b : TLBounds)
    (h : Utils.getBoundsFromPoints pts = some b) :
    Utils.getBoundsFromPoints
      (pts.map fun r => Point3.mk (fx r.x) (fy r.y) r.p) =
      some ⟨fx b.minX, fy b.maxY, fx b.maxX, fy b.minY⟩ := by
  cases pts with
  | nil => simp [Utils.getBoundsFromPoints] at h
  | cons q rest =>
    simp only [Utils.getBoundsFromPoints] at h
    injection h with h
    subst h
    rw [getBoundsFromPoints_map_comp]
    rw [foldr_min_map_comm fx hfx1, foldr_min_map_anti fy hfy1,
        foldr_max_map_comm fx hfx2, foldr_max_map_anti fy hfy2]

theorem getBoundsFromPoints_map_aa (fx fy : ℚ → ℚ)
    (hfx1 : ∀ u v : ℚ, fx (max u v) = min (fx u) (fx v))
    (hfx2 : ∀ u v : ℚ, fx (min u v) = max (fx u) (fx v))
    (hfy1 : ∀ u v : ℚ, fy (max u v) = min (fy u) (fy v))
    (hfy2 : ∀ u v : ℚ, fy (min u v) = max (fy u) (fy v))
    (pts : List Point3) (b : TLBounds)
    (h : Utils.getBoundsFromPoints pts = some b) :
    Utils.getBoundsFromPoints
      (pts.map fun r => Point3.mk (fx r.x) (fy r.y) r.p) =
      some ⟨fx b.maxX, fy b.maxY, fx b.minX, fy b.minY⟩ := by
  cases pts with
  | nil => simp [Utils.getBoundsFromPoints] at h
  | cons q rest =>
    simp only [Utils.getBoundsFromPoints] at h
    injection h with h
    subst h
    rw [getBoundsFromPoints_map_comp]
    rw [foldr_min_map_anti fx hfx1, foldr_min_map_anti fy hfy1,
        foldr_max_map_anti fx hfx2, foldr_max_map_anti fy hfy2]

/-- The identity map on points, written componentwise with zero shifts. -/
theorem point3_map_sub_zero (l : List Point3) :
    (l.map fun q => Point3.mk (q.x - 0) (q.y - 0) q.p) = l := by
  refine (List.map_congr_left fun a _ => ?_).trans (List.map_id _)
  cases a
  simp

/-- Closed form of `onSessionComplete` when the shape has bounds. -/
theorem onSessionComplete_eq (s : DrawShape) (lb : TLBounds)
    (h : Utils.getBoundsFromPoints s.points = some lb) :
    Draw.onSessionComplete s = some
      { s with
        points := s.points.map fun q =>
          Point3.mk (q.x - lb.minX) (q.y - lb.minY) q.p
      , point := (s.point.1 + lb.minX, s.point.2 + lb.minY) } := by
  unfold Draw.onSessionComplete Draw.getBounds
  rw [h]
  simp only [Option.map_some', Utils.translateBounds, Vec.add,
    add_sub_cancel_right]

/-- Closed form of `transform` when both bounds computations succeed. -/
theorem transform_eq (s : DrawShape) (bounds : TLBounds)
    (info : Draw.TransformInfo) (isb nb : TLBounds)
    (h1 : Utils.getBoundsFromPoints info.initialShape.points = some isb)
    (h2 : Utils.getBoundsFromPoints s.points = some nb) :
    Draw.transform s bounds info = some
      { s with
        points := info.initialShape.points.map fun q => Point3.mk
          (bounds.width *
            (if info.scaleX < 0 then 1 - q.x / isb.width
             else q.x / isb.width))
          (bounds.height *
            (if info.scaleY < 0 then 1 - q.y / isb.height
             else q.y / isb.height))
          q.p
      , point := Vec.sub (bounds.minX, bounds.minY) (nb.minX, nb.minY) } := by
  unfold Draw.transform
  rw [h1, h2]

/-- C3: `onSessionComplete` is idempotent — applied to its own result it
returns that result unchanged (in particular `point` and `points` agree),
and a failing shape keeps failing. -/
theorem C3_onSessionComplete_idempotent (s : DrawShape) :
    (Draw.onSessionComplete s).bind Draw.onSessionComplete =
      Draw.onSessionComplete s := by
  cases hlb : Utils.getBoundsFromPoints s.points with
  | none =>
    have hnone : Draw.onSessionComplete s = none := by
      unfold Draw.onSessionComplete Draw.getBounds
      rw [hlb]
      rfl
    rw [hnone]
    rfl
  | some lb =>
    have hsub1 : ∀ u v : ℚ, min u v - lb.minX = min (u - lb.minX) (v - lb.minX) :=
      fun u v => (min_sub_sub_right u v lb.minX).symm
    have hsub2 : ∀ u v : ℚ, max u v - lb.minX = max (u - lb.minX) (v - lb.minX) :=
      fun u v => (max_sub_sub_right u v lb.minX).symm
    have hsub3 : ∀ u v : ℚ, min u v - lb.minY = min (u - lb.minY) (v - lb.minY) :=
      fun u v => (min_sub_sub_right u v lb.minY).symm
    have hsub4 : ∀ u v : ℚ, max u v - lb.minY = max (u - lb.minY) (v - lb.minY) :=
      fun u v => (max_sub_sub_right u v lb.minY).symm
    have h2 := getBoundsFromPoints_map_mm (fun t => t - lb.minX)
      (fun t => t - lb.minY) hsub1 hsub2 hsub3 hsub4 s.points lb hlb
    rw [onSessionComplete_eq s lb hlb, Option.some_bind,
      onSessionComplete_eq _ _ h2]
    simp only [sub_self, point3_map_sub_zero, add_zero]

/-- C4: for every draw shape with a non-empty point list,
`onSessionComplete` yields a shape whose local bounding box has its
top-left corner at the origin, while every point's position in parent
space (`point` plus the local coordinates) is unchanged. -/
theorem C4_onSessionComplete_reorigin (s : DrawShape)
    (hne : s.points ≠ []) :
    ∃ s2 lb2, Draw.onSessionComplete s = some s2 ∧
      Utils.getBoundsFromPoints s2.points = some lb2 ∧
      lb2.minX = 0 ∧ lb2.minY = 0 ∧
      s2.points.map (fun q => Vec.add s2.point (q.x, q.y)) =
        s.points.map fun q => Vec.add s.point (q.x, q.y) := by
  obtain ⟨lb, hlb⟩ : ∃ lb, Utils.getBoundsFromPoints s.points = some lb := by
    cases hpts : s.points with
    | nil => exact absurd hpts hne
    | cons q rest => exact ⟨_, rfl⟩
  have hsub1 : ∀ u v : ℚ, min u v - lb.minX = min (u - lb.minX) (v - lb.minX) :=
    fun u v => (min_sub_sub_right u v lb.minX).symm
  have hsub2 : ∀ u v : ℚ, max u v - lb.minX = max (u - lb.minX) (v - lb.minX) :=
    fun u v => (max_sub_sub_right u v lb.minX).symm
  have hsub3 : ∀ u v : ℚ, min u v - lb.minY = min (u - lb.minY) (v - lb.minY) :=
    fun u v => (min_sub_sub_right u v lb.minY).symm
  have hsub4 : ∀ u v : ℚ, max u v - lb.minY = max (u - lb.minY) (v - lb.minY) :=
    fun u v => (max_sub_sub_right u v lb.minY).symm
  have h2 := getBoundsFromPoints_map_mm (fun t => t - lb.minX)
    (fun t => t - lb.minY) hsub1 hsub2 hsub3 hsub4 s.points lb hlb
  refine ⟨_, _, onSessionComplete_eq s lb hlb, h2, sub_self _, sub_self _, ?_⟩
  dsimp only
  rw [List.map_map]
  refine List.map_congr_left fun r _ => ?_
  simp only [Function.comp, Vec.add, Prod.mk.injEq]
  constructor <;> ring

/-- C4 witness: at a concrete finished two-point shape. -/
theorem C4_onSessionComplete_reorigin_witness :
    ∃ s2 lb2, Draw.onSessionComplete shapeTwoDone = some s2 ∧
      Utils.getBoundsFromPoints s2.points = some lb2 ∧
      lb2.minX = 0 ∧ lb2.minY = 0 ∧
      s2.points.map (fun q => Vec.add s2.point (q.x, q.y)) =
        shapeTwoDone.points.map fun q => Vec.add shapeTwoDone.point (q.x, q.y) :=
  C4_onSessionComplete_reorigin shapeTwoDone (by decide)

/-- Lemma: `getBoundsFromPoints` computes the axis-aligned bounding box: every
point is inside and all four sides are attained. -/
theorem getBoundsFromPoints_isAABB (pts : List Point3) (b : TLBounds)
    (h : Utils.getBoundsFromPoints pts = some b) : IsAABBOf pts b := by
  cases pts with
  | nil => simp [Utils.getBoundsFromPoints] at h
  | cons q rest =>
    simp only [Utils.getBoundsFromPoints] at h
    injection h with h
    subst h
    refine ⟨?_, ?_, ?_, ?_, ?_⟩
    · intro r hr
      rcases List.mem_cons.mp hr with rfl | hr
      · exact ⟨foldr_min_le_init _ _, init_le_foldr_max _ _,
          foldr_min_le_init _ _, init_le_foldr_max _ _⟩
      · exact ⟨foldr_min_le_mem _ _ _ (List.mem_map_of_mem _ hr),
          mem_le_foldr_max _ _ _ (List.mem_map_of_mem _ hr),
          foldr_min_le_mem _ _ _ (List.mem_map_of_mem _ hr),
          mem_le_foldr_max _ _ _ (List.mem_map_of_mem _ hr)⟩
    · rcases foldr_min_eq_init_or_mem (rest.map Point3.x) q.x with h | h
      · exact ⟨q, List.mem_cons_self _ _, h.symm⟩
      · obtain ⟨r, hr, hrx⟩ := List.mem_map.mp h
        exact ⟨r, List.mem_cons_of_mem _ hr, hrx⟩
    · rcases foldr_max_eq_init_or_mem (rest.map Point3.x) q.x with h | h
      · exact ⟨q, List.mem_cons_self _ _, h.symm⟩
      · obtain ⟨r, hr, hrx⟩ := List.mem_map.mp h
        exact ⟨r, List.mem_cons_of_mem _ hr, hrx⟩
    · rcases foldr_min_eq_init_or_mem (rest.map Point3.y) q.y with h | h
      · exact ⟨q, List.mem_cons_self _ _, h.symm⟩
      · obtain ⟨r, hr, hry⟩ := List.mem_map.mp h
        exact ⟨r, List.mem_cons_of_mem _ hr, hry⟩
    · rcases foldr_max_eq_init_or_mem (rest.map Point3.y) q.y with h | h
      · exact ⟨q, List.mem_cons_self _ _, h.symm⟩
      · obtain ⟨r, hr, hry⟩ := List.mem_map.mp h
        exact ⟨r, List.mem_cons_of_mem _ hr, hry⟩

/-- Rebuilding a bounds record from its min corner and its normalized
width and height gives it back. -/
theorem bounds_remk (bb : TLBounds) :
    TLBounds.mk bb.minX bb.minY (bb.width + bb.minX) (bb.height + bb.minY) =
      bb := by
  cases bb
  simp [TLBounds.width, TLBounds.height]

/-- C6: `getBounds` is the axis-aligned bounding box of the local points
translated by `point`; in particular, for the demo points
`[[0,0,0.5],[10,0,0.5],[10,10,0.5]]` it is the box from `point` to
`point + (10, 10)`, of width and height 10. -/
theorem C6_getBounds_aabb :
    (∀ s : DrawShape, s.points ≠ [] →
      ∃ lb, Utils.getBoundsFromPoints s.points = some lb ∧
        IsAABBOf s.points lb ∧
        Draw.getBounds s = some (Utils.translateBounds lb s.point)) ∧
    ∀ pt : Point2, Draw.getBounds { shapeDemo with point := pt } =
      some ⟨pt.1, pt.2, pt.1 + 10, pt.2 + 10⟩ ∧
      (TLBounds.mk pt.1 pt.2 (pt.1 + 10) (pt.2 + 10)).width = 10 ∧
      (TLBounds.mk pt.1 pt.2 (pt.1 + 10) (pt.2 + 10)).height = 10 := by
  constructor
  · intro s hne
    obtain ⟨lb, hlb⟩ : ∃ lb, Utils.getBoundsFromPoints s.points = some lb := by
      cases hpts : s.points with
      | nil => exact absurd hpts hne
      | cons q rest => exact ⟨_, rfl⟩
    refine ⟨lb, hlb, getBoundsFromPoints_isAABB _ _ hlb, ?_⟩
    unfold Draw.getBounds
    rw [hlb]
    rfl
  · intro pt
    have hb : Utils.getBoundsFromPoints shapeDemo.points =
        some ⟨0, 0, 10, 10⟩ := by decide
    refine ⟨?_, by simp [TLBounds.width], by simp [TLBounds.height]⟩
    unfold Draw.getBounds
    rw [show ({ shapeDemo with point := pt } : DrawShape).points =
      shapeDemo.points from rfl, hb]
    simp only [Option.map_some', Utils.translateBounds, Option.some.injEq,
      TLBounds.mk.injEq]
    refine ⟨by ring, by ring, by ring, by ring⟩

/-- C6 witness: the general bounding-box fact at the demo shape, and the
end-to-end evaluation at `point = (3, 4)`. -/
theorem C6_getBounds_aabb_witness :
    (∃ lb, Utils.getBoundsFromPoints shapeDemo.points = some lb ∧
      IsAABBOf shapeDemo.points lb ∧
      Draw.getBounds shapeDemo =
        some (Utils.translateBounds lb shapeDemo.point)) ∧
    Draw.getBounds { shapeDemo with point := (3, 4) } =
      some ⟨3, 4, 13, 14⟩ := by
  constructor
  · exact C6_getBounds_aabb.1 shapeDemo (by decide)
  · have h := (C6_getBounds_aabb.2 (3, 4)).1
    rw [h]
    decide

/-- C1 counterexample: `shapeOffOrigin` (local bounds min corner at
`(1, 1)`) transformed to the non-degenerate target box from `(0, 0)` to
`(2, 2)` with scale factors `2, 2` yields bounds from `(1, 1)` to
`(3, 3)`, not the target. -/
theorem C1_transform_bounds_counterexample :
    (0 < TLBounds.width ⟨0, 0, 2, 2⟩ ∧ 0 < TLBounds.height ⟨0, 0, 2, 2⟩) ∧
    (Draw.transform shapeOffOrigin ⟨0, 0, 2, 2⟩
        ⟨shapeOffOrigin, 2, 2⟩).bind Draw.getBounds = some ⟨1, 1, 3, 3⟩ ∧
    (⟨1, 1, 3, 3⟩ : TLBounds) ≠ ⟨0, 0, 2, 2⟩ := by
  decide

/-- C1 amended: for every draw shape whose local bounds have their min
corner at the origin (as `onSessionComplete` establishes) and positive
extent on both axes, transforming with the shape itself as the initial
shape to any non-degenerate target bounds and then taking the bounds of
the result reproduces the target bounds exactly, for any scale signs. -/
theorem C1_transform_bounds_amended (s : DrawShape) (bounds : TLBounds)
    (sx sy : ℚ) (lb : TLBounds)
    (hlb : Utils.getBoundsFromPoints s.points = some lb)
    (hx0 : lb.minX = 0) (hy0 : lb.minY = 0)
    (hw : 0 < lb.width) (hh : 0 < lb.height)
    (hbw : 0 < bounds.width) (hbh : 0 < bounds.height) :
    (Draw.transform s bounds ⟨s, sx, sy⟩).bind Draw.getBounds =
      some bounds := by
  have hwne : lb.width ≠ 0 := ne_of_gt hw
  have hhne : lb.height ≠ 0 := ne_of_gt hh
  have hmx : lb.maxX = lb.width := by
    have e : lb.width = lb.maxX - lb.minX := rfl
    rw [e, hx0, sub_zero]
  have hmy : lb.maxY = lb.height := by
    have e : lb.height = lb.maxY - lb.minY := rfl
    rw [e, hy0, sub_zero]
  have hmonoX : Monotone fun t : ℚ => bounds.width * (t / lb.width) := by
    intro a c hac
    exact mul_le_mul_of_nonneg_left ((div_le_div_iff_of_pos_right hw).mpr hac) hbw.le
  have hmonoY : Monotone fun t : ℚ => bounds.height * (t / lb.height) := by
    intro a c hac
    exact mul_le_mul_of_nonneg_left ((div_le_div_iff_of_pos_right hh).mpr hac) hbh.le
  have hantiX : Antitone fun t : ℚ => bounds.width * (1 - t / lb.width) := by
    intro a c hac
    exact mul_le_mul_of_nonneg_left
      (sub_le_sub_left ((div_le_div_iff_of_pos_right hw).mpr hac) 1) hbw.le
  have hantiY : Antitone fun t : ℚ => bounds.height * (1 - t / lb.height) := by
    intro a c hac
    exact mul_le_mul_of_nonneg_left
      (sub_le_sub_left ((div_le_div_iff_of_pos_right hh).mpr hac) 1) hbh.le
  rw [transform_eq s bounds ⟨s, sx, sy⟩ lb lb hlb hlb, Option.some_bind]
  unfold Draw.getBounds
  dsimp only
  rcases lt_or_le sx 0 with hsx | hsx <;> rcases lt_or_le sy 0 with hsy | hsy
  · -- both flipped
    rw [show (s.points.map fun q => Point3.mk
        (bounds.width * (if sx < 0 then 1 - q.x / lb.width else q.x / lb.width))
        (bounds.height * (if sy < 0 then 1 - q.y / lb.height else q.y / lb.height))
        q.p) = s.points.map fun q => Point3.mk
          (bounds.width * (1 - q.x / lb.width))
          (bounds.height * (1 - q.y / lb.height)) q.p from
      List.map_congr_left fun r _ => by rw [if_pos hsx, if_pos hsy]]
    have hbb := getBoundsFromPoints_map_aa
      (fun t => bounds.width * (1 - t / lb.width))
      (fun t => bounds.height * (1 - t / lb.height))
      (fun _ _ => hantiX.map_max) (fun _ _ => hantiX.map_min)
      (fun _ _ => hantiY.map_max) (fun _ _ => hantiY.map_min)
      s.points lb hlb
    dsimp only at hbb
    rw [hbb]
    simp only [Option.map_some', Utils.translateBounds, Vec.sub]
    rw [hmx, hmy, hx0, hy0, div_self hwne, div_self hhne]
    simp only [zero_div, sub_zero, sub_self, mul_zero, mul_one, zero_add]
    rw [bounds_remk]
  · -- x flipped, y direct
    rw [show (s.points.map fun q => Point3.mk
        (bounds.width * (if sx < 0 then 1 - q.x / lb.width else q.x / lb.width))
        (bounds.height * (if sy < 0 then 1 - q.y / lb.height else q.y / lb.height))
        q.p) = s.points.map fun q => Point3.mk
          (bounds.width * (1 - q.x / lb.width))
          (bounds.height * (q.y / lb.height)) q.p from
      List.map_congr_left fun r _ => by
        rw [if_pos hsx, if_neg (not_lt.mpr hsy)]]
    have hbb := getBoundsFromPoints_map_am
      (fun t => bounds.width * (1 - t / lb.width))
      (fun t => bounds.height * (t / lb.height))
      (fun _ _ => hantiX.map_max) (fun _ _ => hantiX.map_min)
      (fun _ _ => hmonoY.map_min) (fun _ _ => hmonoY.map_max)
      s.points lb hlb
    dsimp only at hbb
    rw [hbb]
    simp only [Option.map_some', Utils.translateBounds, Vec.sub]
    rw [hmx, hmy, hx0, hy0, div_self hwne, div_self hhne]
    simp only [zero_div, sub_zero, sub_self, mul_zero, mul_one, zero_add]
    rw [bounds_remk]
  · -- x direct, y flipped
    rw [show (s.points.map fun q => Point3.mk
        (bounds.width * (if sx < 0 then 1 - q.x / lb.width else q.x / lb.width))
        (bounds.height * (if sy < 0 then 1 - q.y / lb.height else q.y / lb.height))
        q.p) = s.points.map fun q => Point3.mk
          (bounds.width * (q.x / lb.width))
          (bounds.height * (1 - q.y / lb.height)) q.p from
      List.map_congr_left fun r _ => by
        rw [if_neg (not_lt.mpr hsx), if_pos hsy]]
    have hbb := getBoundsFromPoints_map_ma
      (fun t => bounds.width * (t / lb.width))
      (fun t => bounds.height * (1 - t / lb.height))
      (fun _ _ => hmonoX.map_min) (fun _ _ => hmonoX.map_max)
      (fun _ _ => hantiY.map_max) (fun _ _ => hantiY.map_min)
      s.points lb hlb
    dsimp only at hbb
    rw [hbb]
    simp only [Option.map_some', Utils.translateBounds, Vec.sub]
    rw [hmx, hmy, hx0, hy0, div_self hwne, div_self hhne]
    simp only [zero_div, sub_zero, sub_self, mul_zero, mul_one, zero_add]
    rw [bounds_remk]
  · -- both direct
    rw [show (s.points.map fun q => Point3.mk
        (bounds.width * (if sx < 0 then 1 - q.x / lb.width else q.x / lb.width))
        (bounds.height * (if sy < 0 then 1 - q.y / lb.height else q.y / lb.height))
        q.p) = s.points.map fun q => Point3.mk
          (bounds.width * (q.x / lb.width))
          (bounds.height * (q.y / lb.height)) q.p from
      List.map_congr_left fun r _ => by
        rw [if_neg (not_lt.mpr hsx), if_neg (not_lt.mpr hsy)]]
    have hbb := getBoundsFromPoints_map_mm
      (fun t => bounds.width * (t / lb.width))
      (fun t => bounds.height * (t / lb.height))
      (fun _ _ => hmonoX.map_min) (fun _ _ => hmonoX.map_max)
      (fun _ _ => hmonoY.map_min) (fun _ _ => hmonoY.map_max)
      s.points lb hlb
    dsimp only at hbb
    rw [hbb]
    simp only [Option.map_some', Utils.translateBounds, Vec.sub]
    rw [hmx, hmy, hx0, hy0, div_self hwne, div_self hhne]
    simp only [zero_div, sub_zero, sub_self, mul_zero, mul_one, zero_add]
    rw [bounds_remk]

/-- C1 witness: the demo shape (re-origined, bounds 10 by 10) transformed
to the box from `(1, 2)` to `(5, 6)` with a vertical flip lands exactly on
that box. -/
theorem C1_transform_bounds_witness :
    (Draw.transform shapeDemo ⟨1, 2, 5, 6⟩
        ⟨shapeDemo, 1, -1⟩).bind Draw.getBounds = some ⟨1, 2, 5, 6⟩ :=
  C1_transform_bounds_amended shapeDemo ⟨1, 2, 5, 6⟩ 1 (-1) ⟨0, 0, 10, 10⟩
    (by decide) (by decide) (by decide) (by decide) (by decide)
    (by decide) (by decide)

/-- C8: for every draw shape and every query point, `hitTest` returns
true — the permissive policy is the constant-true function, independent of
the shape and the query point. -/
theorem C8_hitTest_const_true (s : DrawShape) (pt : Point2) :
    Draw.hitTest s pt = true := rfl

/-- C5: for every draw shape whose rotation is 0, `getRotatedBounds`
equals `getBounds` (for any point-rotation operation that is the identity
at angle zero, as the counter-clockwise convention requires). -/
theorem C5_getRotatedBounds_zero (rot : ℚ → Point2 → Point2 → Point2)
    (hrot : ∀ c q, rot 0 c q = q) (s : DrawShape) (hz : s.rotation = 0) :
    Draw.getRotatedBounds rot s = Draw.getBounds s := by
  unfold Draw.getRotatedBounds Draw.getBounds Utils.getBoundsFromPointsRot
  rw [hz]
  cases hb : Utils.getBoundsFromPoints s.points with
  | none => simp [hb]
  | some b =>
    have hmap : (s.points.map fun q =>
        let r := rot 0 (Utils.getBoundsCenter b) (q.x, q.y)
        Point3.mk r.1 r.2 q.p) = s.points := by
      refine (List.map_congr_left fun a _ => ?_).trans (List.map_id _)
      simp [hrot]
    simp only [hb, hmap]

/-- C5 witness: at the identity rotation instance and the demo shape. -/
theorem C5_getRotatedBounds_zero_witness :
    Draw.getRotatedBounds rotIdent shapeDemo = Draw.getBounds shapeDemo :=
  C5_getRotatedBounds_zero rotIdent (fun _ _ => rfl) shapeDemo rfl

/-- C2 counterexample: for `shapeDemo` and a query box strictly inside the
shape's bounds that no stroke segment touches, the claim's predicate (the
query box is contained in the shape's bounds, and the boxes do not merely
overlap, so no crossing is demanded) evaluates to true, but
`hitTestBounds` returns false. -/
theorem C2_hitTestBounds_counterexample :
    hitTestBoundsSpecC2 shapeDemo brushInside = some true ∧
    Draw.hitTestBounds rotIdent shapeDemo brushInside = some false := by
  decide

/-- C2 amended: for every non-rotated draw shape with computable bounds,
`hitTestBounds` returns true iff the query box fully contains the shape's
bounds, or else the shape's bounds contain or overlap the query box and
at least one stroke segment crosses the query box. -/
theorem C2_hitTestBounds_amended (rot : ℚ → Point2 → Point2 → Point2)
    (s : DrawShape) (brush b : TLBounds)
    (hz : s.rotation = 0) (hb : Draw.getBounds s = some b) :
    Draw.hitTestBounds rot s brush = some true ↔
      (Utils.boundsContain brush b = true ∨
        ((Utils.boundsContain b brush = true ∨
          Intersect.boundsBounds b brush = true) ∧
         Intersect.polylineBounds s.points
           (Utils.translateBounds brush (Vec.neg s.point)) = true)) := by
  unfold Draw.hitTestBounds
  rw [if_pos hz, hb]
  simp [Bool.or_eq_true, Bool.and_eq_true]

/-- C2 witness: a fully containing query box hits the demo shape. -/
theorem C2_hitTestBounds_witness :
    Draw.hitTestBounds rotIdent shapeDemo brushAround = some true := by
  have h := C2_hitTestBounds_amended rotIdent shapeDemo brushAround
    ⟨0, 0, 10, 10⟩ rfl (by decide)
  exact h.mpr (Or.inl (by decide))

/-- C7 counterexample: a finished shape with zero points has fewer than 3
points, yet `render` fails (bounds of an empty point set are an error)
instead of returning a dot. -/
theorem C7_render_dot_counterexample :
    shapeEmptyDone.points.length < 3 ∧ shapeEmptyDone.isDone = true ∧
    Draw.render gsProj svgMark shapeEmptyDone = none := by
  decide

/-- C7 amended: for every finished draw shape with a non-empty point list,
if it has at most 2 points, or its bounds are below `size / 2` on both
axes, `render` returns the dot: a circle of radius `size * 0.32`. -/
theorem C7_render_dot_amended
    (gs : List Point3 → StrokeOptions → List Point2)
    (svg : List Point2 → String) (s : DrawShape) (b : TLBounds)
    (hb : Draw.getBounds s = some b) (hdone : s.isDone = true)
    (hsmall : s.points.length ≤ 2 ∨
      (b.width < s.style.size / 2 ∧ b.height < s.style.size / 2)) :
    Draw.render gs svg s =
      some (RenderOut.circle (s.style.size * (8 / 25)) (Draw.renderFill s.style)
        s.style.color (Draw.renderWidthAttr s.style)) := by
  have hcond : ((decide (s.points.length ≤ 2) ||
      (decide (b.width < s.style.size / 2) &&
       decide (b.height < s.style.size / 2))) && s.isDone) = true := by
    rcases hsmall with h | ⟨h1, h2⟩
    · simp [h, hdone]
    · simp [h1, h2, hdone]
  unfold Draw.render
  rw [hb]
  simp only [Option.map_some']
  rw [if_pos hcond]

/-- C7 witness: the dot applies to a finished two-point shape and to a
finished degenerate three-point tap. -/
theorem C7_render_dot_witness :
    Draw.render gsProj svgMark shapeTwoDone =
      some (RenderOut.circle (shapeTwoDone.style.size * (8 / 25))
        (Draw.renderFill shapeTwoDone.style) shapeTwoDone.style.color
        (Draw.renderWidthAttr shapeTwoDone.style)) ∧
    Draw.render gsProj svgMark shapeDotDone =
      some (RenderOut.circle (shapeDotDone.style.size * (8 / 25))
        (Draw.renderFill shapeDotDone.style) shapeDotDone.style.color
        (Draw.renderWidthAttr shapeDotDone.style)) :=
  ⟨C7_render_dot_amended gsProj svgMark shapeTwoDone ⟨4, 6, 8, 11⟩
      (by decide) (by decide) (Or.inl (by decide)),
   C7_render_dot_amended gsProj svgMark shapeDotDone ⟨0, 0, 0, 0⟩
      (by decide) (by decide) (Or.inr (by decide))⟩

/-- C9: for every draw shape with fewer than 3 points, the indicator path
is trivial: the fixed degenerate path for zero points, and a single
move-to to the first point for 1 or 2 points — never a failure, whatever
the long-path builder does. -/
theorem C9_indicator_trivial (longPath : List Point3 → String)
    (s : DrawShape) :
    (s.points = [] → Draw.renderIndicator longPath s = "M 0 0 L 0 0") ∧
    (∀ q rest, s.points = q :: rest → rest.length < 2 →
      Draw.renderIndicator longPath s =
        "M " ++ qToString q.x ++ " " ++ qToString q.y) := by
  constructor
  · intro h
    simp [Draw.renderIndicator, getSolidStrokePath, h]
  · intro q rest h hlen
    have h3 : rest.length + 1 < 3 := by omega
    simp [Draw.renderIndicator, getSolidStrokePath, h, h3]

/-- C9 witness: the degenerate path at zero points and the bare move-to at
two points. -/
theorem C9_indicator_trivial_witness :
    Draw.renderIndicator longMark shapeEmptyDone = "M 0 0 L 0 0" ∧
    Draw.renderIndicator longMark shapeTwoDone = "M 1 2" := by
  constructor
  · exact (C9_indicator_trivial longMark shapeEmptyDone).1 (by decide)
  · have h := (C9_indicator_trivial longMark shapeTwoDone).2
      (Point3.mk 1 2 (1/2)) [Point3.mk 5 7 (1/2)] (by decide) (by decide)
    rw [h]; decide

/-- C10 counterexample: `shapeDotDone` has more than 2 points, yet
`render` returns the dot circle, not a path built from
`points.slice(2)` — the dot fallback preempts the outline. -/
theorem C10_render_slice_counterexample :
    2 < shapeDotDone.points.length ∧
    (Draw.render gsProj svgMark shapeDotDone).map RenderOut.isPath =
      some false := by
  decide

/-- C10 amended: for every draw shape with more than 2 points, when the
dot fallback does not apply (the shape is unfinished, or its bounds are
not degenerate relative to `size / 2`), `render` returns a path whose
data is the serialized stroke computed from `shape.points.slice(2)`, and
the simulate-pressure flag is set exactly when the second point's
pressure is 0.5. -/
theorem C10_render_slice_amended
    (gs : List Point3 → StrokeOptions → List Point2)
    (svg : List Point2 → String) (s : DrawShape) (b : TLBounds)
    (hb : Draw.getBounds s = some b) (h2 : 2 < s.points.length)
    (hnodot : s.isDone = false ∨
      ¬(b.width < s.style.size / 2 ∧ b.height < s.style.size / 2)) :
    Draw.render gs svg s =
      some (RenderOut.path
        (svg (gs (s.points.drop 2) (Draw.renderStrokeOptions s)))
        (Draw.renderFill s.style) s.style.color (Draw.renderWidthAttr s.style)) ∧
      ((Draw.renderStrokeOptions s).simulatePressure = true ↔
        (s.points.getD 1 (Point3.mk 0 0 0)).p = 1 / 2) := by
  have hlen : decide (s.points.length ≤ 2) = false := by
    simp only [decide_eq_false_iff_not, not_le]
    exact h2
  have hcond : ((decide (s.points.length ≤ 2) ||
      (decide (b.width < s.style.size / 2) &&
       decide (b.height < s.style.size / 2))) && s.isDone) = false := by
    rcases hnodot with h | h
    · simp [h]
    · rcases not_and_or.mp h with h1 | h1 <;> simp [hlen, h1]
  constructor
  · unfold Draw.render
    rw [hb]
    simp only [Option.map_some']
    rw [if_neg (by simp [hcond])]
    rw [if_pos h2]
  · unfold Draw.renderStrokeOptions
    simp

/-- C10 witness: a finished four-point stroke with non-degenerate bounds
renders as the path of the stroke of its points past the first two. -/
theorem C10_render_slice_witness :
    Draw.render gsProj svgMark shapeFourDone =
      some (RenderOut.path
        (svgMark (gsProj (shapeFourDone.points.drop 2)
          (Draw.renderStrokeOptions shapeFourDone)))
        (Draw.renderFill shapeFourDone.style) shapeFourDone.style.color
        (Draw.renderWidthAttr shapeFourDone.style)) ∧
      ((Draw.renderStrokeOptions shapeFourDone).simulatePressure = true ↔
        (shapeFourDone.points.getD 1 (Point3.mk 0 0 0)).p = 1 / 2) :=
  C10_render_slice_amended gsProj svgMark shapeFourDone ⟨0, 0, 10, 10⟩
    (by decide) (by decide) (Or.inr (by decide))
